import Mathlib

/-!
Shallow embedding of the authorization / audit core of the Turbovets
multi-tenant task-management application, together with proofs about its
role model, organization scope resolution, access decisions and audit
trail.  Each definition is translated from the corresponding TypeScript
source file (noted in its doc comment).
-/

namespace Spec2Proof

/-! ## Role model (libs/data enums: Role, ROLE_HIERARCHY, Permission,
ROLE_PERMISSIONS, hasPermission) -/

/-- `Role` enum: OWNER = 'owner', ADMIN = 'admin', VIEWER = 'viewer'. -/
inductive Role where
  | OWNER
  | ADMIN
  | VIEWER
deriving DecidableEq, Repr

/-- The string value of a `Role` enum member. -/
def Role.value : Role → String
  | .OWNER => "owner"
  | .ADMIN => "admin"
  | .VIEWER => "viewer"

/-- `ROLE_HIERARCHY`: OWNER ↦ 3, ADMIN ↦ 2, VIEWER ↦ 1. -/
def ROLE_HIERARCHY : Role → Nat
  | .OWNER => 3
  | .ADMIN => 2
  | .VIEWER => 1

/-- `isRoleHigherOrEqual(userRole, requiredRole)`:
`ROLE_HIERARCHY[userRole] >= ROLE_HIERARCHY[requiredRole]`. -/
def isRoleHigherOrEqual (userRole requiredRole : Role) : Bool :=
  ROLE_HIERARCHY userRole ≥ ROLE_HIERARCHY requiredRole

/-- `Permission` enum (permission.enum): twelve `resource:action` tags. -/
inductive Permission : Type where
  | TASK_CREATE
  | TASK_READ
  | TASK_UPDATE
  | TASK_DELETE
  | USER_CREATE
  | USER_READ
  | USER_UPDATE
  | USER_DELETE
  | ORG_READ
  | ORG_UPDATE
  | ORG_MANAGE
  | AUDIT_READ
deriving DecidableEq, Repr, Fintype

/-- `ROLE_PERMISSIONS`: `Record<string, Permission[]>` keyed by the
lower-case role strings, exactly the three arrays of the source. Lookup of
any other key is `undefined` (`none`). -/
def ROLE_PERMISSIONS (role : String) : Option (List Permission) :=
  if role = "owner" then
    some [Permission.TASK_CREATE, Permission.TASK_READ, Permission.TASK_UPDATE,
      Permission.TASK_DELETE, Permission.USER_CREATE, Permission.USER_READ,
      Permission.USER_UPDATE, Permission.USER_DELETE, Permission.ORG_READ,
      Permission.ORG_UPDATE, Permission.ORG_MANAGE, Permission.AUDIT_READ]
  else if role = "admin" then
    some [Permission.TASK_CREATE, Permission.TASK_READ, Permission.TASK_UPDATE,
      Permission.TASK_DELETE, Permission.USER_CREATE, Permission.USER_READ,
      Permission.USER_UPDATE, Permission.ORG_READ, Permission.AUDIT_READ]
  else if role = "viewer" then
    some [Permission.TASK_READ, Permission.USER_READ, Permission.ORG_READ]
  else
    none

/-- JS `String.prototype.toLowerCase`, embedded character-wise (the role
strings involved are ASCII). -/
def strToLower (s : String) : String := ⟨s.data.map Char.toLower⟩

/-- `hasPermission(role, permission)`: look the lower-cased role up in
`ROLE_PERMISSIONS`; if present test array membership, otherwise `false`. -/
def hasPermission (role : String) (permission : Permission) : Bool :=
  match ROLE_PERMISSIONS (strToLower role) with
  | some permissions => permissions.contains permission
  | none => false

/-! ## Organizations and scope resolution -/

/-- Organization record: `organizationId` and nullable `parentId`
(organization.entity). Two-level hierarchy: a child (non-null `parentId`)
must itself have no children. -/
structure Org where
  organizationId : String
  parentId : Option String
deriving DecidableEq, Repr

/-- The organization store (rows of the `organizations` table). -/
abbrev OrgStore := List Org

/-- `organizationRepository.findOne({ where: { organizationId } })`. -/
def findOrg (store : OrgStore) (oid : String) : Option Org :=
  store.find? (fun o => o.organizationId == oid)

/-- `organizationRepository.find({ where: { parentId: oid } })`:
the direct children of `oid`. -/
def childrenOf (store : OrgStore) (oid : String) : List Org :=
  store.filter (fun o => o.parentId == some oid)

/-- The authenticated principal (`IUser` as used by the services):
`id`, `email`, `role`, `organizationId`. -/
structure IUser where
  id : String
  email : String
  role : Role
  organizationId : String
deriving DecidableEq, Repr

namespace TasksService

/-- `TasksService.getAccessibleOrganizationIds`: OWNER gets every
organization id; otherwise the user's own org id followed by the ids of
its direct children. -/
def getAccessibleOrganizationIds (store : OrgStore) (user : IUser) : List String :=
  if user.role = Role.OWNER then
    store.map (fun o => o.organizationId)
  else
    user.organizationId ::
      (childrenOf store user.organizationId).map (fun o => o.organizationId)

end TasksService

namespace UsersService

/-- `UsersService.getAccessibleOrganizationIds`: the user's own org id
followed by the ids of its direct children (no OWNER branch here; the
callers special-case OWNER). -/
def getAccessibleOrganizationIds (store : OrgStore) (user : IUser) : List String :=
  user.organizationId ::
    (childrenOf store user.organizationId).map (fun o => o.organizationId)

end UsersService

namespace OrganizationsService

/-- `OrganizationsService.getAccessibleOrganizationIds`: own org id, then
(if the user's org record is found) the ids of its direct children, then —
if the user's org has a non-null `parentId` — that parent id. -/
def getAccessibleOrganizationIds (store : OrgStore) (user : IUser) : List String :=
  match findOrg store user.organizationId with
  | none => [user.organizationId]
  | some userOrg =>
      user.organizationId ::
        ((childrenOf store user.organizationId).map (fun o => o.organizationId) ++
          (match userOrg.parentId with
           | some pid => [pid]
           | none => []))

end OrganizationsService

/-! ## Errors raised by the API layer (NestJS exception classes plus a
rejected store promise) -/

/-- The exceptions thrown by the embedded services, each carrying its
message, plus `storeFailure` for a rejected database write promise and
`typeError` for a JS runtime `TypeError` (a property read off
`undefined`). -/
inductive ApiError where
  | notFound (message : String)
  | forbidden (message : String)
  | unauthorized (message : String)
  | conflict (message : String)
  | badRequest (message : String)
  | storeFailure (message : String)
  | typeError (message : String)
deriving DecidableEq, Repr

/-! ## Audit trail (audit.service) -/

/-- `LogEntry` interface of `audit.service.ts` (all optional fields may be
absent). -/
structure LogEntry where
  action : String
  resource : String
  resourceId : Option String := none
  userId : Option String := none
  userEmail : Option String := none
  organizationId : Option String := none
  details : Option String := none
  ipAddress : Option String := none
  userAgent : Option String := none
  success : Option Bool := none
  errorMessage : Option String := none
deriving DecidableEq, Repr

/-- A saved `audit_logs` row.  `createdAt` is the `@CreateDateColumn`
timestamp fixed at insert time; the generated `auditLogId` primary key is
not consulted by any modeled operation and is not carried. -/
structure AuditLog where
  action : String
  resource : String
  resourceId : Option String
  userId : Option String
  userEmail : Option String
  organizationId : Option String
  details : Option String
  ipAddress : Option String
  userAgent : Option String
  success : Bool
  errorMessage : Option String
  createdAt : Nat
deriving DecidableEq, Repr

/-- JS `x || null` on an optional string: `undefined`, `null` and the empty
string all collapse to `null`. -/
def orNull (x : Option String) : Option String :=
  match x with
  | some s => if s = "" then none else some s
  | none => none

namespace AuditService

/-- `AuditService.log`: build the `AuditLog` row from the entry (`|| null`
defaults, `success` defaulting to `true`), then `await` the repository
save.  The save is a call into the external store: `storeFails` says
whether that promise rejects, in which case the rejection propagates to
the caller (there is no try/catch in the source).  On success the row is
appended to the store with timestamp `now` (the console line printed
afterwards is observability outside the store and is not modeled). -/
def log (storeFails : Bool) (now : Nat) (entry : LogEntry)
    (store : List AuditLog) : Except ApiError (List AuditLog × AuditLog) :=
  let auditLog : AuditLog :=
    { action := entry.action
      resource := entry.resource
      resourceId := orNull entry.resourceId
      userId := orNull entry.userId
      userEmail := orNull entry.userEmail
      organizationId := orNull entry.organizationId
      details := orNull entry.details
      ipAddress := orNull entry.ipAddress
      userAgent := orNull entry.userAgent
      success := entry.success.getD true
      errorMessage := orNull entry.errorMessage
      createdAt := now }
  if storeFails then Except.error (ApiError.storeFailure "audit store unavailable")
  else Except.ok (store ++ [auditLog], auditLog)

/-- `AuditQueryOptions` of `audit.service.ts` (note: this interface has no
`success` filter; `page` and `limit` default to 1 and 50). -/
structure AuditQueryOptions where
  action : Option String := none
  resource : Option String := none
  userId : Option String := none
  startDate : Option Nat := none
  endDate : Option Nat := none
  page : Option Nat := none
  limit : Option Nat := none
deriving DecidableEq, Repr

/-- The organization-scope WHERE clause of `findAll`: absent for OWNER,
`audit.organization_id = currentUser.organizationId` otherwise (a NULL
`organization_id` never matches). -/
def scopeOk (currentUser : IUser) (e : AuditLog) : Bool :=
  currentUser.role == Role.OWNER || e.organizationId == some currentUser.organizationId

/-- The optional `andWhere` filter clauses of `findAll`, conjoined. -/
def filtersOk (options : AuditQueryOptions) (e : AuditLog) : Bool :=
  (match options.action with | some a => e.action == a | none => true) &&
  (match options.resource with | some r => e.resource == r | none => true) &&
  (match options.userId with | some uid => e.userId == some uid | none => true) &&
  (match options.startDate with | some d => decide (d ≤ e.createdAt) | none => true) &&
  (match options.endDate with | some d => decide (e.createdAt ≤ d) | none => true)

/-- `AuditService.findAll`: WHERE scope (non-OWNER only) AND the optional
filters, ORDER BY `created_at` DESC, skip `(page-1)*limit`, take `limit`;
`getManyAndCount` also returns the unpaginated match count. -/
def findAll (options : AuditQueryOptions) (currentUser : IUser)
    (store : List AuditLog) : List AuditLog × Nat :=
  let page := options.page.getD 1
  let limit := options.limit.getD 50
  let matched := store.filter (fun e => scopeOk currentUser e && filtersOk options e)
  let sorted := List.insertionSort (fun a b => b.createdAt ≤ a.createdAt) matched
  ((sorted.drop ((page - 1) * limit)).take limit, matched.length)

/-- `AuditService.getFailedLogins`: WHERE `action = 'LOGIN_FAILED'` AND
`success = false`, plus the own-organization clause for non-OWNER callers,
ORDER BY `created_at` DESC, limit 50. -/
def getFailedLogins (currentUser : IUser) (store : List AuditLog) : List AuditLog :=
  let matched := store.filter (fun e =>
    e.action == "LOGIN_FAILED" && e.success == false &&
    (currentUser.role == Role.OWNER || e.organizationId == some currentUser.organizationId))
  (List.insertionSort (fun a b => b.createdAt ≤ a.createdAt) matched).take 50

end AuditService

/-! ## RolesGuard (roles.guard) and the failed-logins route -/

namespace RolesGuard

/-- `RolesGuard.canActivate`, with the required roles already resolved by
`getAllAndOverride` (method-level `@Roles` overrides the class-level one):
empty requirement allows; a missing user is rejected upstream, so the
route model below always passes one; otherwise some required role must
equal the user's role or be at or below it in the hierarchy. -/
def canActivate (requiredRoles : List Role) (user : Option IUser) :
    Except ApiError Unit :=
  if requiredRoles = [] then Except.ok ()
  else
    match user with
    | none => Except.error (ApiError.forbidden "User not authenticated")
    | some u =>
        if requiredRoles.any (fun requiredRole =>
            u.role == requiredRole || isRoleHigherOrEqual u.role requiredRole) then
          Except.ok ()
        else
          Except.error (ApiError.forbidden
            ("Access denied. Required role: " ++
              String.intercalate " or " (requiredRoles.map Role.value) ++
              ". Your role: " ++ u.role.value))

end RolesGuard

namespace AuditController

/-- `GET /audit-log/failed-logins` as actually wired in
`audit.controller.ts`: `RolesGuard` runs with `[OWNER]` (the method-level
`@Roles(Role.OWNER)` overrides the controller-level one), but the handler
takes no `@CurrentUser` — it calls
`auditService.getFailedLogins(email, hoursNum)`, passing the raw `email`
query parameter (plus a spurious `hours` number) where
`AuditService.getFailedLogins` declares `(currentUser: IUser)`.  (The
controller was written against a different service interface: it also
imports `AuditLogQueryOptions` and calls `findAll(options)` with one
argument, neither of which `audit.service.ts` declares, so the staged
files do not type-check together.)  This models the request with no
`email` query parameter: the service body then evaluates
`undefined.role`, which throws a JS `TypeError` before any query runs,
so even a caller passing the OWNER gate obtains no entries.  (With an
`email` string supplied, `.role` and `.organizationId` read off the
string are `undefined`, so the service's OWNER branch is equally
unreachable and the organization clause is bound to `undefined`.)  The
audit store is never consulted by the route: the throw happens first. -/
def getFailedLoginsRoute (user : IUser) (_store : List AuditLog) :
    Except ApiError (List AuditLog) :=
  match RolesGuard.canActivate [Role.OWNER] (some user) with
  | Except.error e => Except.error e
  | Except.ok _ =>
      Except.error (ApiError.typeError
        "Cannot read properties of undefined (reading role)")

end AuditController

/-! ## Tasks (task entity, dtos, tasks.service) -/

/-- `CreateTaskDto`: required `title`, optional rest. -/
structure CreateTaskDto where
  title : String
  description : Option String := none
  priority : Option String := none
  category : Option String := none
  dueDate : Option Nat := none
  assignedToId : Option String := none
deriving DecidableEq, Repr

/-- A `tasks` table row, with the columns the service reads and writes
(status defaults to `TODO` and priority to `MEDIUM` at the entity). -/
structure Task where
  taskId : String
  title : String
  description : Option String
  status : String
  priority : String
  category : Option String
  position : Nat
  dueDate : Option Nat
  userId : String
  organizationId : String
deriving DecidableEq, Repr

namespace TasksService

/-- The `MAX(task.position)` query of `create`, restricted to the user's
organization (`0` when there is no row, matching `maxPosition?.max || 0`). -/
def maxPositionIn (taskStore : List Task) (orgId : String) : Nat :=
  ((taskStore.filter (fun t => t.organizationId == orgId)).map
    (fun t => t.position)).foldr max 0

/-- The task row built by `create` from the dto, the acting user, the
repository-assigned id and the `MAX(position)` query. -/
def newTaskRecord (dto : CreateTaskDto) (user : IUser) (newTaskId : String)
    (taskStore : List Task) : Task :=
  { taskId := newTaskId
    title := dto.title
    description := dto.description
    status := "TODO"
    priority := dto.priority.getD "MEDIUM"
    category := dto.category
    position := maxPositionIn taskStore user.organizationId + 1
    dueDate := dto.dueDate
    userId := user.id
    organizationId := user.organizationId }

/-- `TasksService.create`: compute the next position, save the new task
(the repository assigns `newTaskId`), then `await` the audit log call.
The task store is mutated before the audit write; a failing audit store
rejects the `await` and the exception propagates, but the saved task stays
saved.  Returns the task store after the save together with the caller's
control-flow outcome. -/
def create (storeFails : Bool) (now : Nat) (dto : CreateTaskDto) (user : IUser)
    (newTaskId : String) (taskStore : List Task) (auditStore : List AuditLog) :
    List Task × Except ApiError (List AuditLog × Task) :=
  let task : Task := newTaskRecord dto user newTaskId taskStore
  let taskStore' := taskStore ++ [task]
  match AuditService.log storeFails now
      { action := "TASK_CREATED"
        resource := "task"
        resourceId := some task.taskId
        userId := some user.id
        userEmail := some user.email
        organizationId := some user.organizationId
        details := some task.title
        success := some true } auditStore with
  | Except.error e => (taskStore', Except.error e)
  | Except.ok (auditStore', _) => (taskStore', Except.ok (auditStore', task))

/-- The action argument of `checkTaskAccess`. -/
inductive TaskAction where
  | read
  | update
  | delete
deriving DecidableEq, Repr

/-- `TasksService.checkTaskAccess`: OWNER passes; a VIEWER must own the
task and may only read it; any other role (ADMIN) needs the task's
organization inside its accessible organization ids. -/
def checkTaskAccess (orgStore : OrgStore) (task : Task) (user : IUser)
    (action : TaskAction) : Except ApiError Unit :=
  if user.role = Role.OWNER then Except.ok ()
  else if user.role = Role.VIEWER then
    if task.userId ≠ user.id then
      Except.error (ApiError.forbidden "You do not have access to this task")
    else if action ≠ TaskAction.read then
      Except.error (ApiError.forbidden "Viewers cannot modify tasks")
    else Except.ok ()
  else
    if (getAccessibleOrganizationIds orgStore user).contains task.organizationId then
      Except.ok ()
    else Except.error (ApiError.forbidden "You do not have access to this task")

/-- One `taskRepository.update(taskIds[i], { position: i })` step: set the
position of every row whose primary key matches. -/
def updateTaskPosition (taskStore : List Task) (id : String) (pos : Nat) : List Task :=
  taskStore.map (fun t => if t.taskId = id then { t with position := pos } else t)

/-- The `for` loop of `reorder`, carrying the running index. -/
def reorderLoop : List Task → List String → Nat → List Task
  | taskStore, [], _ => taskStore
  | taskStore, id :: rest, i => reorderLoop (updateTaskPosition taskStore id i) rest (i + 1)

/-- `TasksService.reorder`: walk `taskIds` updating positions 0,1,2,…
without any role, ownership or organization check, then submit one audit
entry.  Returns the mutated task store and the submitted entry. -/
def reorder (taskStore : List Task) (taskIds : List String) (user : IUser) :
    List Task × LogEntry :=
  (reorderLoop taskStore taskIds 0,
    { action := "TASKS_REORDERED"
      resource := "task"
      resourceId := none
      userId := some user.id
      userEmail := some user.email
      organizationId := some user.organizationId
      details := some (toString taskIds.length)
      success := some true })

end TasksService

/-! ## Users and authentication (user entity, users.service, auth.service) -/

/-- A `users` table row with the columns the modeled operations touch
(`password` holds the bcrypt hash). -/
structure User where
  userId : String
  email : String
  password : String
  firstName : String
  lastName : String
  role : Role
  organizationId : String
  isActive : Bool
deriving DecidableEq, Repr

namespace UsersService

/-- `UsersService.remove`: find the target by id (404 when absent), require
an OWNER caller (403 otherwise), then soft-delete — save the row with
`isActive = false` — and `await` the audit log write (whose rejection
would propagate after the mutation).  Returns the user store, the audit
store and the caller's outcome. -/
def remove (storeFails : Bool) (now : Nat) (userId : String) (currentUser : IUser)
    (userStore : List User) (auditStore : List AuditLog) :
    List User × List AuditLog × Except ApiError Unit :=
  match userStore.find? (fun u => u.userId == userId) with
  | none => (userStore, auditStore, Except.error (ApiError.notFound "User not found"))
  | some user =>
      if currentUser.role ≠ Role.OWNER then
        (userStore, auditStore,
          Except.error (ApiError.forbidden "Only owners can delete users"))
      else
        let userStore' := userStore.map (fun u =>
          if u.userId == userId then { u with isActive := false } else u)
        match AuditService.log storeFails now
            { action := "USER_DELETED"
              resource := "user"
              resourceId := some userId
              userId := some currentUser.id
              userEmail := some currentUser.email
              organizationId := some currentUser.organizationId
              details := some user.email
              success := some true } auditStore with
        | Except.error e => (userStore', auditStore, Except.error e)
        | Except.ok (auditStore', _) => (userStore', auditStore', Except.ok ())

end UsersService

/-- The JWT payload built by `AuthService.login` (`sub` = user id); the
signing of the token is the external credential service and is out of
scope. -/
structure IJwtPayload where
  sub : String
  email : String
  role : Role
  organizationId : String
deriving DecidableEq, Repr

namespace AuthService

/-- `AuthService.login`: look the user up by lower-cased email; on a
missing user, a deactivated account or a wrong password (`checkPassword`
embeds `bcrypt.compare`), write a `LOGIN_FAILED` audit entry and throw
`UnauthorizedException`; otherwise write a `LOGIN` entry and return the
JWT payload.  Returns the audit store and the outcome. -/
def login (checkPassword : String → String → Bool) (storeFails : Bool) (now : Nat)
    (email password : String) (userStore : List User) (auditStore : List AuditLog) :
    List AuditLog × Except ApiError IJwtPayload :=
  match userStore.find? (fun u => u.email == strToLower email) with
  | none =>
      match AuditService.log storeFails now
          { action := "LOGIN_FAILED"
            resource := "auth"
            userId := none
            userEmail := some email
            organizationId := none
            details := some "User not found"
            success := some false
            errorMessage := some "Invalid credentials" } auditStore with
      | Except.error e => (auditStore, Except.error e)
      | Except.ok (auditStore', _) =>
          (auditStore', Except.error (ApiError.unauthorized "Invalid email or password"))
  | some user =>
      if user.isActive = false then
        match AuditService.log storeFails now
            { action := "LOGIN_FAILED"
              resource := "auth"
              userId := some user.userId
              userEmail := some user.email
              organizationId := some user.organizationId
              details := some "Account deactivated"
              success := some false
              errorMessage := some "Account is deactivated" } auditStore with
        | Except.error e => (auditStore, Except.error e)
        | Except.ok (auditStore', _) =>
            (auditStore', Except.error (ApiError.unauthorized "Account is deactivated"))
      else if checkPassword password user.password = false then
        match AuditService.log storeFails now
            { action := "LOGIN_FAILED"
              resource := "auth"
              userId := some user.userId
              userEmail := some user.email
              organizationId := some user.organizationId
              details := some "Invalid password"
              success := some false
              errorMessage := some "Invalid credentials" } auditStore with
        | Except.error e => (auditStore, Except.error e)
        | Except.ok (auditStore', _) =>
            (auditStore', Except.error (ApiError.unauthorized "Invalid email or password"))
      else
        match AuditService.log storeFails now
            { action := "LOGIN"
              resource := "auth"
              userId := some user.userId
              userEmail := some user.email
              organizationId := some user.organizationId
              details := some "password"
              success := some true } auditStore with
        | Except.error e => (auditStore, Except.error e)
        | Except.ok (auditStore', _) =>
            (auditStore',
              Except.ok ⟨user.userId, user.email, user.role, user.organizationId⟩)

end AuthService

/-! ## Demo organization hierarchy (shape of the seeded data: one root with
two children) used to instantiate the theorems. -/

/-- Root organization. -/
def orgA : Org := ⟨"org-A", none⟩

/-- First child of `orgA`. -/
def orgB : Org := ⟨"org-B", some "org-A"⟩

/-- Second child of `orgA` (sibling of `orgB`). -/
def orgC : Org := ⟨"org-C", some "org-A"⟩

/-- Store holding the root and its two children. -/
def demoOrgStore : OrgStore := [orgA, orgB, orgC]

/-- A non-OWNER principal whose organization is the child `orgB`. -/
def childAdmin : IUser := ⟨"user-1", "admin@b.example", Role.ADMIN, "org-B"⟩

/-- An ADMIN principal in the root organization `orgA`. -/
def rootAdmin : IUser := ⟨"user-2", "admin@a.example", Role.ADMIN, "org-A"⟩

/-- A VIEWER principal in the child organization `orgB`. -/
def demoViewer : IUser := ⟨"user-3", "viewer@b.example", Role.VIEWER, "org-B"⟩

/-- An OWNER principal in the root organization `orgA`. -/
def demoOwner : IUser := ⟨"user-0", "owner@a.example", Role.OWNER, "org-A"⟩

/-- A task-creation request used to instantiate the theorems. -/
def demoDto : CreateTaskDto := { title := "Demo task" }

/-- An audit entry whose organization is the child `orgB`. -/
def auditEntryChildOrg : AuditLog :=
  { action := "TASK_CREATED", resource := "task", resourceId := some "task-9"
    userId := some "user-1", userEmail := some "admin@b.example"
    organizationId := some "org-B", details := none, ipAddress := none
    userAgent := none, success := true, errorMessage := none, createdAt := 10 }

/-- An audit entry in the root org `orgA`. -/
def auditEntryRootOrg : AuditLog :=
  { action := "TASK_UPDATED", resource := "task", resourceId := some "task-8"
    userId := some "user-2", userEmail := some "admin@a.example"
    organizationId := some "org-A", details := none, ipAddress := none
    userAgent := none, success := true, errorMessage := none, createdAt := 11 }

/-- The newer of two `orgA` audit entries, action `X`. -/
def auditNewerX : AuditLog :=
  { action := "X", resource := "task", resourceId := none, userId := none
    userEmail := none, organizationId := some "org-A", details := none
    ipAddress := none, userAgent := none, success := true, errorMessage := none
    createdAt := 2 }

/-- The older of two `orgA` audit entries, action `Y`. -/
def auditOlderY : AuditLog :=
  { action := "Y", resource := "task", resourceId := none, userId := none
    userEmail := none, organizationId := some "org-A", details := none
    ipAddress := none, userAgent := none, success := true, errorMessage := none
    createdAt := 1 }

/-- Query options with no filters and everything defaulted. -/
def noOptions : AuditService.AuditQueryOptions := {}

/-- Query options selecting one row per page, no filters. -/
def optsLimit1 : AuditService.AuditQueryOptions := { limit := some 1 }

/-- Query options selecting one row per page with an `action = Y` filter. -/
def optsLimit1ActionY : AuditService.AuditQueryOptions :=
  { action := some "Y", limit := some 1 }

/-- Filterless query options keeping only the pagination of `options`. -/
def pageSameAs (options : AuditService.AuditQueryOptions) :
    AuditService.AuditQueryOptions :=
  { page := options.page, limit := options.limit }

/-- Filterless query options asking for the first `n` rows. -/
def pageAll (n : Nat) : AuditService.AuditQueryOptions :=
  { page := some 1, limit := some n }

/-- A failed-login audit entry recorded in the child organization `orgB`. -/
def failedLoginEntry : AuditLog :=
  { action := "LOGIN_FAILED", resource := "auth", resourceId := none
    userId := none, userEmail := some "ghost@b.example"
    organizationId := some "org-B", details := none, ipAddress := none
    userAgent := none, success := false, errorMessage := some "Invalid credentials"
    createdAt := 3 }

/-! ## Helper lemmas for the audit queries -/

/-- Equality of `Except` results is decidable when both sides are. -/
instance exceptDecEq {v w : Type} [DecidableEq v] [DecidableEq w] :
    DecidableEq (Except v w) := fun x y =>
  match x, y with
  | Except.ok a, Except.ok b =>
      decidable_of_iff (a = b)
        ⟨fun h => by rw [h], fun h => by injection h⟩
  | Except.ok _, Except.error _ => isFalse (fun h => Except.noConfusion h)
  | Except.error _, Except.ok _ => isFalse (fun h => Except.noConfusion h)
  | Except.error e, Except.error f =>
      decidable_of_iff (e = f)
        ⟨fun h => by rw [h], fun h => by injection h⟩

/-- A task owned by the VIEWER `user-3` but sitting in the sibling org
`org-C`. -/
def ownTaskOtherOrg : Task :=
  { taskId := "task-own", title := "mine", description := none, status := "TODO"
    priority := "MEDIUM", category := none, position := 1, dueDate := none
    userId := "user-3", organizationId := "org-C" }

/-- A task in the VIEWER's own org `org-B`, owned by another user. -/
def otherTaskSameOrg : Task :=
  { taskId := "task-other", title := "theirs", description := none, status := "TODO"
    priority := "MEDIUM", category := none, position := 2, dueDate := none
    userId := "user-1", organizationId := "org-B" }
/-- The pointwise effect of the reorder loop on a single task record: walk
the id list, setting the position to the running index whenever the id
matches. -/
def setAllPositions : List String → Nat → Task → Task
  | [], _, t => t
  | id :: rest, i, t =>
      setAllPositions rest (i + 1) (if t.taskId = id then { t with position := i } else t)
/-- A task in `org-B` owned by `user-1`, initially at position 7. -/
def demoTask1 : Task :=
  { taskId := "task-1", title := "first", description := none, status := "TODO"
    priority := "MEDIUM", category := none, position := 7, dueDate := none
    userId := "user-1", organizationId := "org-B" }

/-- A task in the sibling org `org-C` owned by `user-9`, initially at
position 9. -/
def demoTask2 : Task :=
  { taskId := "task-2", title := "second", description := none, status := "TODO"
    priority := "MEDIUM", category := none, position := 9, dueDate := none
    userId := "user-9", organizationId := "org-C" }

/-- The demo task store. -/
def demoTaskStore : List Task := [demoTask1, demoTask2]
/-- The user to be soft-deleted in the witness scenario. -/
def targetUser : User :=
  { userId := "user-9", email := "bob@b.example", password := "hash-bob"
    firstName := "Bob", lastName := "B", role := Role.VIEWER
    organizationId := "org-B", isActive := true }

/-! ## Shared lemmas about scope resolution -/

/-- If every record named `cId` has parent `aId` and `aId ≠ bId`, then
`cId` is not among the ids of the children of `bId`. -/
theorem not_mem_childrenOf_map (store : OrgStore) (aId bId cId : String)
    (hC : ∀ o ∈ store, o.organizationId = cId → o.parentId = some aId)
    (hab : aId ≠ bId) :
    cId ∉ (childrenOf store bId).map (fun o => o.organizationId) := by
  intro hmem
  rcases List.mem_map.mp hmem with ⟨o, ho, hoid⟩
  rcases List.mem_filter.mp ho with ⟨hos, hop⟩
  have hpar : o.parentId = some aId := hC o hos hoid
  have : o.parentId = some bId := by
    simpa using hop
  rw [hpar] at this
  exact hab (Option.some.inj this)

/-- If no record of the store has parent `bId`, the children list of `bId`
is empty. -/
theorem childrenOf_eq_nil (store : OrgStore) (bId : String)
    (h : ∀ o ∈ store, o.parentId ≠ some bId) :
    childrenOf store bId = [] := by
  apply List.filter_eq_nil_iff.mpr
  intro o ho
  simpa using h o ho

/-- A record returned by `findOrg` is a member of the store and carries the
looked-up id. -/
theorem findOrg_spec (store : OrgStore) (oid : String) (o : Org)
    (h : findOrg store oid = some o) : o ∈ store ∧ o.organizationId = oid := by
  refine ⟨List.mem_of_find?_eq_some h, ?_⟩
  have := List.find?_some h
  simpa using this

/-- Filtering with a stronger predicate never yields a longer list. -/
theorem filter_length_mono {α : Type} (p q : α → Bool) (l : List α)
    (h : ∀ a, p a = true → q a = true) :
    (l.filter p).length ≤ (l.filter q).length := by
  induction l with
  | nil => simp
  | cons a l ih =>
      cases hp : p a with
      | true =>
          have hq := h a hp
          simp only [List.filter_cons, hp, hq, if_true, List.length_cons]
          exact Nat.succ_le_succ ih
      | false =>
          cases hq : q a with
          | true =>
              simp only [List.filter_cons, hp, hq, if_true, if_false,
                Bool.false_eq_true, List.length_cons]
              exact Nat.le_succ_of_le ih
          | false =>
              simpa only [List.filter_cons, hp, hq, Bool.false_eq_true,
                if_false] using ih

/-- Membership in a paginated, sorted filter result implies membership in
the filtered list. -/
theorem mem_of_mem_paged {α : Type} (r : α → α → Prop) [DecidableRel r]
    (l : List α) (skip lim : Nat) (a : α)
    (h : a ∈ ((List.insertionSort r l).drop skip).take lim) : a ∈ l :=
  (List.mem_insertionSort r).mp (List.mem_of_mem_drop (List.mem_of_mem_take h))

/-- When the page is the first one and the limit at least the list length,
the paginated sorted result holds every element of the list. -/
theorem mem_paged_of_mem {α : Type} (r : α → α → Prop) [DecidableRel r]
    (l : List α) (lim : Nat) (a : α) (hlen : l.length ≤ lim) (h : a ∈ l) :
    a ∈ ((List.insertionSort r l).drop 0).take lim := by
  rw [List.drop_zero, List.take_of_length_le]
  · exact (List.mem_insertionSort r).mpr h
  · rw [List.length_insertionSort]
    exact hlen

/-! ## C2 — audit append failure and the caller's primary operation -/

/-- C2 counterexample: with a failing audit store, `AuditService.log`
rejects and `TasksService.create` propagates that rejection to its caller
(the claim says the caller never receives the store failure), even though
the task was already saved. -/
theorem claim2_counterexample :
    AuditService.log true 5 { action := "TASK_CREATED", resource := "task" } [] =
      Except.error (ApiError.storeFailure "audit store unavailable") ∧
    (TasksService.create true 5 demoDto childAdmin "task-1" [] []).2 =
      Except.error (ApiError.storeFailure "audit store unavailable") ∧
    (TasksService.create true 5 demoDto childAdmin "task-1" [] []).1 ≠ [] := by
  decide

/-- C2 amended: when the audit store write fails, `AuditService.log`
throws the store error to its caller — the already-performed task mutation
is kept (not rolled back) but the caller's primary operation fails after
it; there is no distinct `AuditWriteFailed` observability signal in the
code. -/
theorem claim2_amended (storeFails : Bool) (now : Nat) (dto : CreateTaskDto)
    (user : IUser) (newTaskId : String) (taskStore : List Task)
    (auditStore : List AuditLog) (hfail : storeFails = true) :
    (∃ t : Task,
      (TasksService.create storeFails now dto user newTaskId taskStore auditStore).1 =
        taskStore ++ [t] ∧
      t.title = dto.title ∧ t.userId = user.id ∧
      t.organizationId = user.organizationId) ∧
    (TasksService.create storeFails now dto user newTaskId taskStore auditStore).2 =
      Except.error (ApiError.storeFailure "audit store unavailable") ∧
    (∀ (entry : LogEntry) (store : List AuditLog),
      AuditService.log storeFails now entry store =
        Except.error (ApiError.storeFailure "audit store unavailable")) := by
  subst hfail
  refine ⟨⟨TasksService.newTaskRecord dto user newTaskId taskStore,
    ?_, rfl, rfl, rfl⟩, ?_, ?_⟩
  · simp [TasksService.create, AuditService.log]
  · simp [TasksService.create, AuditService.log]
  · intro entry store
    simp [AuditService.log]

/-- C2 witness: the amended statement at concrete inputs. -/
theorem claim2_witness :
    (∃ t : Task,
      (TasksService.create true 5 demoDto childAdmin "task-1" [] []).1 = [] ++ [t] ∧
      t.title = demoDto.title ∧ t.userId = childAdmin.id ∧
      t.organizationId = childAdmin.organizationId) ∧
    (TasksService.create true 5 demoDto childAdmin "task-1" [] []).2 =
      Except.error (ApiError.storeFailure "audit store unavailable") ∧
    (∀ (entry : LogEntry) (store : List AuditLog),
      AuditService.log true 5 entry store =
        Except.error (ApiError.storeFailure "audit store unavailable")) :=
  claim2_amended true 5 demoDto childAdmin "task-1" [] [] rfl

/-! ## C3 — what the audit query returns -/

/-- C3 counterexample: `rootAdmin` is a non-OWNER in the root org `org-A`
whose resolved scope contains the child `org-B`, and `auditEntryChildOrg`
(org `org-B`) matches the empty filter; yet `findAll` returns nothing —
the in-scope matching entry is omitted because the query restricts to the
caller's own organization only. -/
theorem claim3_counterexample :
    rootAdmin.role ≠ Role.OWNER ∧
    auditEntryChildOrg.organizationId = some "org-B" ∧
    "org-B" ∈ TasksService.getAccessibleOrganizationIds demoOrgStore rootAdmin ∧
    AuditService.filtersOk noOptions auditEntryChildOrg = true ∧
    (AuditService.findAll noOptions rootAdmin [auditEntryChildOrg]).1 = [] := by
  decide

/-- C3 amended: an OWNER sees every entry matching the filters; a
non-OWNER sees an entry iff it is stored, matches the filters and carries
the caller's own `organizationId` (child organizations' entries are not
included), with completeness stated within the first page when the limit
covers the store. -/
theorem claim3_amended :
    (∀ (options : AuditService.AuditQueryOptions) (u : IUser)
        (store : List AuditLog) (e : AuditLog),
      e ∈ (AuditService.findAll options u store).1 →
        e ∈ store ∧ AuditService.filtersOk options e = true ∧
          (u.role ≠ Role.OWNER → e.organizationId = some u.organizationId)) ∧
    (∀ (options : AuditService.AuditQueryOptions) (u : IUser)
        (store : List AuditLog) (e : AuditLog),
      e ∈ store → AuditService.filtersOk options e = true →
      (u.role = Role.OWNER ∨ e.organizationId = some u.organizationId) →
      options.page.getD 1 = 1 → store.length ≤ options.limit.getD 50 →
      e ∈ (AuditService.findAll options u store).1) := by
  constructor
  · intro options u store e hmem
    have hf : e ∈ store.filter
        (fun x => AuditService.scopeOk u x && AuditService.filtersOk options x) :=
      mem_of_mem_paged _ _ _ _ _ hmem
    rcases List.mem_filter.mp hf with ⟨hs, hcond⟩
    rw [Bool.and_eq_true] at hcond
    rcases hcond with ⟨hscope, hfilters⟩
    refine ⟨hs, hfilters, ?_⟩
    intro hrole
    simp only [AuditService.scopeOk, Bool.or_eq_true, beq_iff_eq] at hscope
    rcases hscope with howner | horg
    · exact absurd howner hrole
    · exact horg
  · intro options u store e hs hfilters hscope hpage hlim
    have hcond : (AuditService.scopeOk u e && AuditService.filtersOk options e) = true := by
      rw [Bool.and_eq_true]
      refine ⟨?_, hfilters⟩
      rcases hscope with howner | horg
      · simp [AuditService.scopeOk, howner]
      · simp [AuditService.scopeOk, horg]
    have hf : e ∈ store.filter
        (fun x => AuditService.scopeOk u x && AuditService.filtersOk options x) :=
      List.mem_filter.mpr ⟨hs, hcond⟩
    have hlen : (store.filter
        (fun x => AuditService.scopeOk u x && AuditService.filtersOk options x)).length ≤
        options.limit.getD 50 :=
      le_trans (List.length_filter_le _ store) hlim
    have := mem_paged_of_mem (fun a b : AuditLog => b.createdAt ≤ a.createdAt)
      _ (options.limit.getD 50) e hlen hf
    simpa [AuditService.findAll, hpage] using this


/-! ## C1 — scope of a child-org principal -/

/-- C1 counterexample: the claim says every code path that computes
accessible organization IDs yields exactly `{principalOrgId}` for a
principal in a child organization.  `OrganizationsService`'s path also
includes the parent: for `childAdmin` (org `org-B`, whose `parentId` is
`org-A`) it returns `["org-B", "org-A"]`, which contains the parent
`org-A`. -/
theorem claim1_counterexample :
    OrganizationsService.getAccessibleOrganizationIds demoOrgStore childAdmin ≠
      [childAdmin.organizationId] ∧
    "org-A" ∈ OrganizationsService.getAccessibleOrganizationIds demoOrgStore childAdmin ∧
    orgB.parentId = some "org-A" := by
  decide

/-- C1 amended: for a non-OWNER principal in a child organization (its org
record has a non-null `parentId` and, by the two-level invariant, no
children), the `TasksService` and `UsersService` paths resolve exactly
`[principalOrgId]`, while the `OrganizationsService` path resolves
`[principalOrgId, parentId]` — it additionally grants the parent
organization. -/
theorem claim1_amended (store : OrgStore) (user : IUser) (userOrg : Org) (aId : String)
    (hrole : user.role ≠ Role.OWNER)
    (hfind : findOrg store user.organizationId = some userOrg)
    (hparent : userOrg.parentId = some aId)
    (hleaf : ∀ o ∈ store, o.parentId ≠ some user.organizationId) :
    TasksService.getAccessibleOrganizationIds store user = [user.organizationId] ∧
    UsersService.getAccessibleOrganizationIds store user = [user.organizationId] ∧
    OrganizationsService.getAccessibleOrganizationIds store user =
      [user.organizationId, aId] := by
  have hnil := childrenOf_eq_nil store user.organizationId hleaf
  refine ⟨?_, ?_, ?_⟩
  · simp [TasksService.getAccessibleOrganizationIds, hrole, hnil]
  · simp [UsersService.getAccessibleOrganizationIds, hnil]
  · simp [OrganizationsService.getAccessibleOrganizationIds, hfind, hparent, hnil]

/-- C1 witness: the amended statement evaluated for `childAdmin` over the
demo store. -/
theorem claim1_witness :
    TasksService.getAccessibleOrganizationIds demoOrgStore childAdmin =
      [childAdmin.organizationId] ∧
    UsersService.getAccessibleOrganizationIds demoOrgStore childAdmin =
      [childAdmin.organizationId] ∧
    OrganizationsService.getAccessibleOrganizationIds demoOrgStore childAdmin =
      [childAdmin.organizationId, "org-A"] :=
  claim1_amended demoOrgStore childAdmin orgB "org-A"
    (by decide) (by decide) (by decide) (by decide)

/-! ## C4 — the role/permission table -/

/-- C4: `hasPermission` reproduces the §4.1 table — OWNER holds every
permission; ADMIN holds everything except `user:delete`, `org:update`,
`org:manage`; VIEWER holds only `task:read`, `user:read`, `org:read`; and
any role string outside the closed set (after the code's lower-casing)
yields `false` without throwing. -/
theorem claim4_theorem :
    (∀ p : Permission, hasPermission "owner" p = true) ∧
    (∀ p : Permission, hasPermission "admin" p = true ↔
      (p ≠ Permission.USER_DELETE ∧ p ≠ Permission.ORG_UPDATE ∧
        p ≠ Permission.ORG_MANAGE)) ∧
    (∀ p : Permission, hasPermission "viewer" p = true ↔
      (p = Permission.TASK_READ ∨ p = Permission.USER_READ ∨
        p = Permission.ORG_READ)) ∧
    (∀ (role : String) (p : Permission),
      strToLower role ≠ "owner" → strToLower role ≠ "admin" → strToLower role ≠ "viewer" →
      hasPermission role p = false) := by
  refine ⟨by decide, by decide, by decide, ?_⟩
  intro role p h1 h2 h3
  simp [hasPermission, ROLE_PERMISSIONS, h1, h2, h3]

/-- C4 witness: a role value outside the closed set gets no permission. -/
theorem claim4_witness : hasPermission "superuser" Permission.TASK_READ = false :=
  claim4_theorem.2.2.2 "superuser" Permission.TASK_READ
    (by decide) (by decide) (by decide)

/-! ## C5 — sibling isolation -/

/-- C5: if every store record named `user.organizationId` and every record
named `cId` is a child of the same root `aId` (with the three ids
distinct), then the sibling `cId` lies in none of the three accessible-
organization-id computations for a non-OWNER principal in
`user.organizationId`. -/
theorem claim5_theorem (store : OrgStore) (user : IUser) (aId cId : String)
    (hrole : user.role ≠ Role.OWNER)
    (hB : ∀ o ∈ store, o.organizationId = user.organizationId → o.parentId = some aId)
    (hC : ∀ o ∈ store, o.organizationId = cId → o.parentId = some aId)
    (hab : aId ≠ user.organizationId)
    (hcb : cId ≠ user.organizationId)
    (hca : cId ≠ aId) :
    cId ∉ TasksService.getAccessibleOrganizationIds store user ∧
    cId ∉ UsersService.getAccessibleOrganizationIds store user ∧
    cId ∉ OrganizationsService.getAccessibleOrganizationIds store user := by
  have hchild := not_mem_childrenOf_map store aId user.organizationId cId hC hab
  refine ⟨?_, ?_, ?_⟩
  · simp only [TasksService.getAccessibleOrganizationIds, if_neg hrole]
    intro hmem
    rcases List.mem_cons.mp hmem with h | h
    · exact hcb h
    · exact hchild h
  · simp only [UsersService.getAccessibleOrganizationIds]
    intro hmem
    rcases List.mem_cons.mp hmem with h | h
    · exact hcb h
    · exact hchild h
  · cases hfind : findOrg store user.organizationId with
    | none =>
        simp only [OrganizationsService.getAccessibleOrganizationIds, hfind]
        intro hmem
        exact hcb (by simpa using hmem)
    | some o =>
        obtain ⟨hos, hoid⟩ := findOrg_spec store user.organizationId o hfind
        have hpar : o.parentId = some aId := hB o hos hoid
        simp only [OrganizationsService.getAccessibleOrganizationIds, hfind, hpar]
        intro hmem
        rcases List.mem_cons.mp hmem with h | h
        · exact hcb h
        · rcases List.mem_append.mp h with h | h
          · exact hchild h
          · exact hca (by simpa using h)

/-- C5 witness: sibling `org-C` is invisible to the child-org principal
`childAdmin` of `org-B` on all three code paths. -/
theorem claim5_witness :
    "org-C" ∉ TasksService.getAccessibleOrganizationIds demoOrgStore childAdmin ∧
    "org-C" ∉ UsersService.getAccessibleOrganizationIds demoOrgStore childAdmin ∧
    "org-C" ∉ OrganizationsService.getAccessibleOrganizationIds demoOrgStore childAdmin :=
  claim5_theorem demoOrgStore childAdmin "org-A" "org-C"
    (by decide) (by decide) (by decide) (by decide) (by decide) (by decide)

/-- C3 witness: the amended completeness direction evaluated for a root-org
ADMIN and an own-organization entry. -/
theorem claim3_witness :
    auditEntryRootOrg ∈ (AuditService.findAll noOptions rootAdmin [auditEntryRootOrg]).1 :=
  claim3_amended.2 noOptions rootAdmin [auditEntryRootOrg] auditEntryRootOrg
    (by decide) (by decide) (Or.inr (by decide)) (by decide) (by decide)

/-! ## C8 — filters only narrow the scoped result -/

/-- C8 counterexample: with pagination held fixed at one row per page, the
non-OWNER `rootAdmin` gets `[auditNewerX]` without filters but
`[auditOlderY]` with the `action = Y` filter — the filtered result set is
not a subset of the unfiltered one, because the filter pulls an older row
into the page. -/
theorem claim8_counterexample :
    rootAdmin.role ≠ Role.OWNER ∧
    (AuditService.findAll optsLimit1ActionY rootAdmin [auditNewerX, auditOlderY]).1 =
      [auditOlderY] ∧
    (AuditService.findAll optsLimit1 rootAdmin [auditNewerX, auditOlderY]).1 =
      [auditNewerX] ∧
    auditOlderY ∉ (AuditService.findAll optsLimit1 rootAdmin [auditNewerX, auditOlderY]).1 := by
  decide

/-- C8 amended: the filter parameters are conjoined with AND on top of the
organization-scope restriction and never replace it — any row matching
scope-plus-filters matches the scope alone, the unpaginated match count
can only shrink, and every entry returned under filters is also returned
by the filterless query once its page covers the store.  (A filtered page
need not be a subset of the unfiltered page of the same size, as the
counterexample shows.) -/
theorem claim8_amended :
    (∀ (options : AuditService.AuditQueryOptions) (u : IUser) (e : AuditLog),
      (AuditService.scopeOk u e && AuditService.filtersOk options e) = true →
      AuditService.scopeOk u e = true) ∧
    (∀ (options : AuditService.AuditQueryOptions) (u : IUser) (store : List AuditLog),
      (AuditService.findAll options u store).2 ≤
        (AuditService.findAll (pageSameAs options) u store).2) ∧
    (∀ (options : AuditService.AuditQueryOptions) (u : IUser) (store : List AuditLog)
        (e : AuditLog),
      e ∈ (AuditService.findAll options u store).1 →
      e ∈ (AuditService.findAll (pageAll store.length) u store).1) := by
  refine ⟨?_, ?_, ?_⟩
  · intro options u e h
    rw [Bool.and_eq_true] at h
    exact h.1
  · intro options u store
    have h : ∀ e : AuditLog,
        (AuditService.scopeOk u e && AuditService.filtersOk options e) = true →
        (AuditService.scopeOk u e && AuditService.filtersOk (pageSameAs options) e) = true := by
      intro e he
      rw [Bool.and_eq_true] at he ⊢
      exact ⟨he.1, rfl⟩
    simpa [AuditService.findAll] using
      filter_length_mono
        (fun e => AuditService.scopeOk u e && AuditService.filtersOk options e)
        (fun e => AuditService.scopeOk u e && AuditService.filtersOk (pageSameAs options) e)
        store h
  · intro options u store e hmem
    have hf : e ∈ store.filter
        (fun x => AuditService.scopeOk u x && AuditService.filtersOk options x) :=
      mem_of_mem_paged _ _ _ _ _ hmem
    rcases List.mem_filter.mp hf with ⟨hs, hcond⟩
    rw [Bool.and_eq_true] at hcond
    have hcond' : (AuditService.scopeOk u e &&
        AuditService.filtersOk (pageAll store.length) e) = true := by
      rw [Bool.and_eq_true]
      exact ⟨hcond.1, rfl⟩
    have hf' : e ∈ store.filter
        (fun x => AuditService.scopeOk u x && AuditService.filtersOk (pageAll store.length) x) :=
      List.mem_filter.mpr ⟨hs, hcond'⟩
    have hlen : (store.filter
        (fun x => AuditService.scopeOk u x &&
          AuditService.filtersOk (pageAll store.length) x)).length ≤ store.length :=
      List.length_filter_le _ store
    have := mem_paged_of_mem (fun a b : AuditLog => b.createdAt ≤ a.createdAt)
      _ store.length e hlen hf'
    simpa [AuditService.findAll, pageAll] using this

/-- C8 witness: the entry visible under the `action = Y` filter is visible
to the same principal in the filterless query covering the store. -/
theorem claim8_witness :
    auditOlderY ∈ (AuditService.findAll (pageAll ([auditNewerX, auditOlderY].length))
      rootAdmin [auditNewerX, auditOlderY]).1 :=
  claim8_amended.2.2 optsLimit1ActionY rootAdmin [auditNewerX, auditOlderY] auditOlderY
    (by decide)

/-! ## C6 — the failed-logins query -/

/-- C6 (code bug): `RolesGuard` with the method-level `@Roles(OWNER)`
stops every non-OWNER, but the handler's mis-typed call — the `email`
query parameter occupying the `currentUser` slot — throws a `TypeError`
after the gate, so NO caller (OWNER included) ever obtains failed-login
entries from the route; whereas `AuditService.getFailedLogins` invoked
per its own declaration with an OWNER principal is independent of the
OWNER's organization and returns every stored failed-login entry of any
organization (within the query's LIMIT 50) — the behaviour the claim,
the spec and the controller's own OWNER-only comment describe. -/
theorem claim6_theorem :
    (∀ (u : IUser) (store : List AuditLog) (logs : List AuditLog),
      AuditController.getFailedLoginsRoute u store ≠ Except.ok logs) ∧
    (∀ (u : IUser) (store : List AuditLog), u.role = Role.OWNER →
      AuditController.getFailedLoginsRoute u store =
        Except.error (ApiError.typeError
          "Cannot read properties of undefined (reading role)")) ∧
    (∀ (u u' : IUser) (store : List AuditLog),
      u.role = Role.OWNER → u'.role = Role.OWNER →
      AuditService.getFailedLogins u store =
        AuditService.getFailedLogins u' store) ∧
    (∀ (u : IUser) (store : List AuditLog) (e : AuditLog),
      u.role = Role.OWNER → e ∈ store → e.action = "LOGIN_FAILED" →
      e.success = false → store.length ≤ 50 →
      e ∈ AuditService.getFailedLogins u store) := by
  refine ⟨?_, ?_, ?_, ?_⟩
  · intro u store logs
    cases hu : u.role with
    | OWNER =>
        simp [AuditController.getFailedLoginsRoute, RolesGuard.canActivate, hu]
    | ADMIN =>
        simp [AuditController.getFailedLoginsRoute, RolesGuard.canActivate,
          isRoleHigherOrEqual, ROLE_HIERARCHY, hu]
    | VIEWER =>
        simp [AuditController.getFailedLoginsRoute, RolesGuard.canActivate,
          isRoleHigherOrEqual, ROLE_HIERARCHY, hu]
  · intro u store hu
    simp [AuditController.getFailedLoginsRoute, RolesGuard.canActivate, hu]
  · intro u u' store hu hu'
    simp [AuditService.getFailedLogins, hu, hu']
  · intro u store e hu he hact hsucc hlen
    have hf : e ∈ store.filter (fun x =>
        x.action == "LOGIN_FAILED" && x.success == false &&
        (u.role == Role.OWNER || x.organizationId == some u.organizationId)) := by
      refine List.mem_filter.mpr ⟨he, ?_⟩
      simp [hact, hsucc, hu]
    have hlen2 : (List.insertionSort (fun a b : AuditLog => b.createdAt ≤ a.createdAt)
        (store.filter (fun x =>
          x.action == "LOGIN_FAILED" && x.success == false &&
          (u.role == Role.OWNER || x.organizationId == some u.organizationId)))).length ≤ 50 := by
      rw [List.length_insertionSort]
      exact le_trans (List.length_filter_le _ store) hlen
    show e ∈ AuditService.getFailedLogins u store
    rw [AuditService.getFailedLogins]
    rw [List.take_of_length_le hlen2]
    exact (List.mem_insertionSort _).mpr hf

/-- C6 witness: the route yields the `TypeError` even for the OWNER of
`org-A` and an `ok` result for nobody, while the service itself, called
with that OWNER as declared, returns the failed-login entry recorded in
`org-B`. -/
theorem claim6_witness :
    AuditController.getFailedLoginsRoute demoOwner [failedLoginEntry] =
      Except.error (ApiError.typeError
        "Cannot read properties of undefined (reading role)") ∧
    AuditController.getFailedLoginsRoute rootAdmin [failedLoginEntry] ≠
      Except.ok [failedLoginEntry] ∧
    failedLoginEntry ∈ AuditService.getFailedLogins demoOwner [failedLoginEntry] :=
  ⟨claim6_theorem.2.1 demoOwner [failedLoginEntry] rfl,
   claim6_theorem.1 rootAdmin [failedLoginEntry] [failedLoginEntry],
   claim6_theorem.2.2.2 demoOwner [failedLoginEntry] failedLoginEntry rfl
     (by decide) rfl rfl (by decide)⟩

/-! ## C7 — VIEWER self-access -/

/-- C7: a VIEWER reading a task they own is allowed whatever the task's
organization; a VIEWER reading a task owned by someone else is denied by
the viewer-own-records branch (the code throws `ForbiddenException`; the
spec labels this reason `ViewerRestrictedToOwn`), organization regardless —
in particular even when the task sits in the VIEWER's own organization. -/
theorem claim7_theorem :
    (∀ (orgStore : OrgStore) (task : Task) (u : IUser),
      u.role = Role.VIEWER → task.userId = u.id →
      TasksService.checkTaskAccess orgStore task u TasksService.TaskAction.read =
        Except.ok ()) ∧
    (∀ (orgStore : OrgStore) (task : Task) (u : IUser),
      u.role = Role.VIEWER → task.userId ≠ u.id →
      TasksService.checkTaskAccess orgStore task u TasksService.TaskAction.read =
        Except.error (ApiError.forbidden "You do not have access to this task")) := by
  constructor
  · intro orgStore task u hrole hown
    simp [TasksService.checkTaskAccess, hrole, hown]
  · intro orgStore task u hrole hown
    simp [TasksService.checkTaskAccess, hrole, hown]

/-- C7 witness: the VIEWER reads their own task in a foreign organization,
and is denied another user's task inside their own organization. -/
theorem claim7_witness :
    TasksService.checkTaskAccess demoOrgStore ownTaskOtherOrg demoViewer
      TasksService.TaskAction.read = Except.ok () ∧
    otherTaskSameOrg.organizationId = demoViewer.organizationId ∧
    TasksService.checkTaskAccess demoOrgStore otherTaskSameOrg demoViewer
      TasksService.TaskAction.read =
      Except.error (ApiError.forbidden "You do not have access to this task") :=
  ⟨claim7_theorem.1 demoOrgStore ownTaskOtherOrg demoViewer rfl rfl,
   rfl,
   claim7_theorem.2 demoOrgStore otherTaskSameOrg demoViewer rfl (by decide)⟩

/-! ## C9 — reorder mutates positions without any check -/

/-- The reorder loop is the elementwise application of `setAllPositions`. -/
theorem reorderLoop_eq_map (ids : List String) (taskStore : List Task) (k : Nat) :
    TasksService.reorderLoop taskStore ids k = taskStore.map (setAllPositions ids k) := by
  induction ids generalizing taskStore k with
  | nil =>
      simp [TasksService.reorderLoop, setAllPositions]
  | cons id rest ih =>
      simp only [TasksService.reorderLoop, TasksService.updateTaskPosition, ih,
        List.map_map]
      apply List.map_congr_left
      intro t _
      simp [Function.comp, setAllPositions]

/-- `setAllPositions` never changes a task's id. -/
theorem setAllPositions_taskId (ids : List String) (k : Nat) (t : Task) :
    (setAllPositions ids k t).taskId = t.taskId := by
  induction ids generalizing k t with
  | nil => rfl
  | cons id rest ih =>
      cases h : decide (t.taskId = id) with
      | true =>
          have h' : t.taskId = id := of_decide_eq_true h
          simp [setAllPositions, h', ih]
      | false =>
          have h' : ¬ t.taskId = id := of_decide_eq_false h
          simp [setAllPositions, h', ih]

/-- A task whose id is not listed passes through `setAllPositions`
unchanged. -/
theorem setAllPositions_of_not_mem (ids : List String) (k : Nat) (t : Task)
    (h : t.taskId ∉ ids) : setAllPositions ids k t = t := by
  induction ids generalizing k with
  | nil => rfl
  | cons id rest ih =>
      have hne : t.taskId ≠ id := fun hc => h (hc ▸ List.mem_cons_self id rest)
      have hrest : t.taskId ∉ rest := fun hc => h (List.mem_cons_of_mem id hc)
      simp [setAllPositions, hne, ih _ hrest]

/-- With distinct ids, a task whose id is the `i`-th entry ends with
position `k + i`. -/
theorem setAllPositions_position (ids : List String) (k : Nat) (t : Task)
    (i : Nat) (h : i < ids.length) (hnodup : ids.Nodup)
    (hid : t.taskId = ids.get ⟨i, h⟩) :
    (setAllPositions ids k t).position = k + i := by
  induction ids generalizing k t i with
  | nil => exact absurd h (Nat.not_lt_zero i)
  | cons id rest ih =>
      rcases List.nodup_cons.mp hnodup with ⟨hhead, hrest⟩
      cases i with
      | zero =>
          have hid0 : t.taskId = id := hid
          have ht' : ({ t with position := k } : Task).taskId ∉ rest := by
            simpa [hid0] using hhead
          show (setAllPositions rest (k + 1)
            (if t.taskId = id then { t with position := k } else t)).position = k + 0
          rw [if_pos hid0, setAllPositions_of_not_mem rest (k + 1) _ ht']
          simp
      | succ i =>
          have hlt : i < rest.length := Nat.lt_of_succ_lt_succ h
          have hid' : t.taskId = rest.get ⟨i, hlt⟩ := hid
          have hne : t.taskId ≠ id := by
            intro hc
            apply hhead
            rw [← hc, hid']
            exact List.get_mem rest i hlt
          show (setAllPositions rest (k + 1)
            (if t.taskId = id then { t with position := k } else t)).position = k + (i + 1)
          rw [if_neg hne, ih (k + 1) t i hlt hrest hid']
          omega

/-- C9: for any caller of any role, `reorder` sets the position of the task
with id `taskIds[i]` to `i` for every index `i` (distinct ids), across all
organizations, and the resulting task store does not depend on the caller
at all — no role, ownership or organization-scope check guards the
mutation. -/
theorem claim9_theorem (taskStore : List Task) (taskIds : List String)
    (u : IUser) (hnodup : taskIds.Nodup) :
    (∀ (i : Nat) (h : i < taskIds.length) (t : Task),
      t ∈ (TasksService.reorder taskStore taskIds u).1 →
      t.taskId = taskIds.get ⟨i, h⟩ → t.position = i) ∧
    (∀ u' : IUser,
      (TasksService.reorder taskStore taskIds u').1 =
        (TasksService.reorder taskStore taskIds u).1) := by
  constructor
  · intro i h t hmem hid
    have hmem' : t ∈ taskStore.map (setAllPositions taskIds 0) := by
      simpa [TasksService.reorder, reorderLoop_eq_map] using hmem
    rcases List.mem_map.mp hmem' with ⟨t0, _, ht0⟩
    have hid0 : t0.taskId = taskIds.get ⟨i, h⟩ := by
      rw [← setAllPositions_taskId taskIds 0 t0, ht0, hid]
    have := setAllPositions_position taskIds 0 t0 i h hnodup hid0
    rw [ht0] at this
    simpa using this
  · intro u'
    rfl

/-- C9 witness: a VIEWER from `org-B` reorders tasks of two different
organizations owned by other users; the task listed first ends at
position 0. -/
theorem claim9_witness :
    ({ demoTask2 with position := 0 } : Task).position = 0 :=
  (claim9_theorem demoTaskStore ["task-2", "task-1"] demoViewer (by decide)).1
    0 (by decide) ({ demoTask2 with position := 0 } : Task) (by decide) (by decide)

/-! ## C10 — user deletion is a soft delete -/

/-- C10: with a working audit store, an OWNER's `remove` of an existing
user succeeds; every other user's row passes through unchanged; the
target's row stays in the store with only `isActive` flipped to `false`
(email, name, role, organization and password hash untouched); the set of
user ids is preserved (no row is removed); any later email lookup that
lands on the target's row finds it deactivated; and a login against a
deactivated account is rejected with `Account is deactivated` while
appending exactly one `LOGIN_FAILED` audit entry with `success = false`. -/
theorem claim10_theorem :
    (∀ (now : Nat) (targetId : String) (cu : IUser) (userStore : List User)
        (auditStore : List AuditLog) (target : User),
      userStore.find? (fun u => u.userId == targetId) = some target →
      cu.role = Role.OWNER →
      ((UsersService.remove false now targetId cu userStore auditStore).2.2 =
          Except.ok () ∧
        (∀ u ∈ userStore, u.userId ≠ targetId →
          u ∈ (UsersService.remove false now targetId cu userStore auditStore).1) ∧
        (∀ u ∈ userStore, u.userId = targetId →
          ({ u with isActive := false } : User) ∈
            (UsersService.remove false now targetId cu userStore auditStore).1) ∧
        ((UsersService.remove false now targetId cu userStore auditStore).1.map
            (fun u => u.userId) = userStore.map (fun u => u.userId)) ∧
        (∀ (em : String) (w : User),
          (UsersService.remove false now targetId cu userStore auditStore).1.find?
            (fun u => u.email == strToLower em) = some w →
          w.userId = targetId → w.isActive = false))) ∧
    (∀ (cp : String → String → Bool) (now : Nat) (email pw : String)
        (userStore : List User) (auditStore : List AuditLog) (w : User),
      userStore.find? (fun u => u.email == strToLower email) = some w →
      w.isActive = false →
      ∃ e : AuditLog,
        AuthService.login cp false now email pw userStore auditStore =
          (auditStore ++ [e],
            Except.error (ApiError.unauthorized "Account is deactivated")) ∧
        e.action = "LOGIN_FAILED" ∧ e.success = false ∧
        e.userId = orNull (some w.userId)) := by
  constructor
  · intro now targetId cu userStore auditStore target hfind hrole
    have h1 : (UsersService.remove false now targetId cu userStore auditStore).1 =
        userStore.map (fun u =>
          if u.userId == targetId then { u with isActive := false } else u) := by
      simp [UsersService.remove, hfind, hrole, AuditService.log]
    refine ⟨?_, ?_, ?_, ?_, ?_⟩
    · simp [UsersService.remove, hfind, hrole, AuditService.log]
    · intro u hu hne
      rw [h1]
      refine List.mem_map.mpr ⟨u, hu, ?_⟩
      simp [hne]
    · intro u hu heq
      rw [h1]
      refine List.mem_map.mpr ⟨u, hu, ?_⟩
      simp [heq]
    · rw [h1, List.map_map]
      apply List.map_congr_left
      intro u _
      by_cases hb : u.userId = targetId
      · simp [Function.comp, hb]
      · simp [Function.comp, hb]
    · intro em w hfindw hwid
      rw [h1] at hfindw
      have hw : w ∈ userStore.map (fun u =>
          if u.userId == targetId then { u with isActive := false } else u) :=
        List.mem_of_find?_eq_some hfindw
      rcases List.mem_map.mp hw with ⟨u0, _, hu0⟩
      by_cases hb : u0.userId = targetId
      · rw [← hu0]
        simp [hb]
      · exfalso
        apply hb
        have : w = u0 := by
          rw [← hu0]
          simp [hb]
        rw [← hwid, this]
  · intro cp now email pw userStore auditStore w hfindw hinactive
    simp only [AuthService.login, hfindw, hinactive, AuditService.log,
      if_pos, if_false, Bool.false_eq_true, ite_false, ite_true]
    exact ⟨_, rfl, rfl, rfl, rfl⟩

/-- C10 witness: the OWNER deactivates `targetUser`; the row — identical
except for `isActive` — is still in the store, and a login with the
deactivated user's email is rejected. -/
theorem claim10_witness :
    ({ targetUser with isActive := false } : User) ∈
      (UsersService.remove false 3 "user-9" demoOwner [targetUser] []).1 ∧
    (∃ e : AuditLog,
      AuthService.login (fun a b => a == b) false 4 "bob@b.example" "pw"
          (UsersService.remove false 3 "user-9" demoOwner [targetUser] []).1 [] =
        ([e], Except.error (ApiError.unauthorized "Account is deactivated")) ∧
      e.action = "LOGIN_FAILED" ∧ e.success = false ∧
      e.userId = orNull (some ({ targetUser with isActive := false } : User).userId)) :=
  ⟨((claim10_theorem.1 3 "user-9" demoOwner [targetUser] [] targetUser
      (by decide) rfl).2.2.1 targetUser (by decide) rfl),
   (claim10_theorem.2 (fun a b => a == b) 4 "bob@b.example" "pw"
      (UsersService.remove false 3 "user-9" demoOwner [targetUser] []).1 []
      ({ targetUser with isActive := false } : User) (by decide) rfl)⟩

end Spec2Proof
